import Mathlib

/-!
Verification development for the chat-driven task manager
(`jay-pee`): a shallow embedding of its real-time synchronization layer.

The embedding covers, faithfully to the TypeScript source:

* the task data model (`src/models/task.types.ts`);
* the mock backend (`MockService` in the mock-service file): `createTask`,
  `updateTask`, `getTasks` (sorted by `updated_at` descending);
* the task service (`src/services/task-service.ts`, development/mock path):
  `toggleTaskStatus`, `calculateStats`;
* the task view-model (`src/viewmodels/useTaskViewModel.ts`):
  `refreshTasks`, `toggleTaskStatus` with its optimistic flip and
  rollback-by-reload;
* the registered agent-mutation handler (`handleSubmit` in the chat
  interface component), which calls `refreshTasks()` for every action;
* the chat view-model (`useChatViewModel`): `clearMessages`;
* the WebSocket service (`WebSocketService`): `connect`, `disconnect`,
  `sendMessage`, `handleOpen`, `handleClose`, `handleError`,
  `tryReconnect`, together with an event-step relation describing what
  the browser environment can do (timers firing, transport events).

Dates: the source compares due dates after `setHours(0,0,0,0)` on both
sides, i.e. a date-only comparison; dates are therefore embedded as day
numbers (`Nat`).  Timestamps (`created_at` / `updated_at`) are likewise
embedded as `Nat`.  Reconnect delays are embedded as exact rationals
(`ℚ`), since `1000 * 1.5^n` is exactly representable in both JavaScript
floats and `ℚ` for the exponents reachable here.
-/

set_option linter.unnecessarySeqFocus false

namespace JayPee

/-! ## Task data model (src/models/task.types.ts) -/

/-- `TaskStatus = 'active' | 'completed'`. -/
inductive TaskStatus where
  | active
  | completed
deriving DecidableEq

/-- `TaskPriority = 'high' | 'medium' | 'low'`. -/
inductive TaskPriority where
  | high
  | medium
  | low
deriving DecidableEq

/-- `Task` from task.types.ts; `due_date` is an optional day number and the
two timestamps are abstract instants (`Nat`). -/
structure Task where
  id : Nat
  title : String
  description : String
  status : TaskStatus
  priority : TaskPriority
  due_date : Option Nat := none
  created_at : Nat := 0
  updated_at : Nat := 0
deriving DecidableEq

/-- `TaskStats` from task.types.ts. -/
structure TaskStats where
  total : Nat
  active : Nat
  completed : Nat
  overdue : Nat
deriving DecidableEq

/-- `TaskCreate` DTO from task.types.ts (all fields optional). -/
structure TaskCreate where
  title : Option String := none
  description : Option String := none
  priority : Option TaskPriority := none
  due_date : Option Nat := none
deriving DecidableEq

/-- `TaskAction` from task.types.ts: the tagged payloads actually produced
by `MockService.processAgentMessage` (`create` carries the created task,
`update` the updated task, `delete` the id, `list`/`filter` a task set). -/
inductive TaskAction where
  | create (data : Task)
  | update (data : Task)
  | delete (id : Nat)
  | list (data : List Task)
  | filter (data : List Task)
deriving DecidableEq

/-! ## Statistics recompute (task-service.ts, `calculateStats`) -/

/-- One iteration of the `tasks.forEach` loop in `calculateStats`
(task-service.ts): `active` tasks bump `active`, and additionally bump
`overdue` when their due date is strictly before `today` (date-only
comparison); all other tasks bump `completed`. -/
def statsStep (today : Nat) (s : TaskStats) (t : Task) : TaskStats :=
  if t.status = TaskStatus.active then
    let s1 := { s with active := s.active + 1 }
    match t.due_date with
    | some d => if d < today then { s1 with overdue := s1.overdue + 1 } else s1
    | none => s1
  else
    { s with completed := s.completed + 1 }

/-- `TaskService.calculateStats` (task-service.ts): start from
`{total := tasks.length, active := 0, completed := 0, overdue := 0}` and
fold the `forEach` body over the collection. -/
def calculateStats (today : Nat) (tasks : List Task) : TaskStats :=
  tasks.foldl (statsStep today)
    { total := tasks.length, active := 0, completed := 0, overdue := 0 }

/-- Decidable form of "counts toward `overdue`": status `active` and a due
date strictly before `today`. -/
def isOverdueAt (today : Nat) (t : Task) : Bool :=
  decide (t.status = TaskStatus.active) &&
    (match t.due_date with
     | some d => decide (d < today)
     | none => false)

theorem statsStep_total (today : Nat) (s : TaskStats) (t : Task) :
    (statsStep today s t).total = s.total := by
  unfold statsStep
  split
  · cases t.due_date with
    | none => rfl
    | some d =>
      simp only []
      split <;> rfl
  · rfl

theorem statsStep_active (today : Nat) (s : TaskStats) (t : Task) :
    (statsStep today s t).active =
      s.active + (if t.status = TaskStatus.active then 1 else 0) := by
  unfold statsStep
  split
  · rename_i h
    cases t.due_date with
    | none => simp [h]
    | some d =>
      simp only [h, if_pos]
      split <;> simp
  · rename_i h
    simp [h]

theorem statsStep_completed (today : Nat) (s : TaskStats) (t : Task) :
    (statsStep today s t).completed =
      s.completed + (if t.status = TaskStatus.active then 0 else 1) := by
  unfold statsStep
  split
  · rename_i h
    cases t.due_date with
    | none => simp [h]
    | some d =>
      simp only [h, if_pos]
      split <;> simp
  · rename_i h
    simp [h]

theorem statsStep_overdue (today : Nat) (s : TaskStats) (t : Task) :
    (statsStep today s t).overdue =
      s.overdue + (if isOverdueAt today t then 1 else 0) := by
  unfold statsStep isOverdueAt
  split
  · rename_i h
    cases t.due_date with
    | none => simp [h]
    | some d =>
      simp only [h]
      split <;> rename_i hd <;> simp [hd]
  · rename_i h
    simp [h]

theorem statsFold_total (today : Nat) (l : List Task) (init : TaskStats) :
    (l.foldl (statsStep today) init).total = init.total := by
  induction l generalizing init with
  | nil => rfl
  | cons x xs ih => simp [List.foldl, ih, statsStep_total]

theorem statsFold_active (today : Nat) (l : List Task) (init : TaskStats) :
    (l.foldl (statsStep today) init).active =
      init.active + l.countP (fun t => decide (t.status = TaskStatus.active)) := by
  induction l generalizing init with
  | nil => simp
  | cons x xs ih =>
    simp only [List.foldl, ih, statsStep_active, List.countP_cons]
    by_cases h : x.status = TaskStatus.active <;> simp [h] <;> try omega

theorem statsFold_completed (today : Nat) (l : List Task) (init : TaskStats) :
    (l.foldl (statsStep today) init).completed =
      init.completed + l.countP (fun t => !decide (t.status = TaskStatus.active)) := by
  induction l generalizing init with
  | nil => simp
  | cons x xs ih =>
    simp only [List.foldl, ih, statsStep_completed, List.countP_cons]
    by_cases h : x.status = TaskStatus.active <;> simp [h] <;> try omega

theorem statsFold_overdue (today : Nat) (l : List Task) (init : TaskStats) :
    (l.foldl (statsStep today) init).overdue =
      init.overdue + l.countP (isOverdueAt today) := by
  induction l generalizing init with
  | nil => simp
  | cons x xs ih =>
    simp only [List.foldl, ih, statsStep_overdue, List.countP_cons]
    by_cases h : isOverdueAt today x <;> simp [h] <;> try omega

/-- **C4.** Every statistics recompute over any cached task collection
yields statistics satisfying `active + completed = total` and
`overdue ≤ active` (`calculateStats`, task-service.ts). -/
theorem calculateStats_invariant (today : Nat) (tasks : List Task) :
    (calculateStats today tasks).active + (calculateStats today tasks).completed =
      (calculateStats today tasks).total
    ∧ (calculateStats today tasks).overdue ≤ (calculateStats today tasks).active := by
  unfold calculateStats
  constructor
  · rw [statsFold_active, statsFold_completed, statsFold_total]
    simp only [Nat.zero_add]
    have h := List.length_eq_countP_add_countP
      (l := tasks) (p := fun t => decide (t.status = TaskStatus.active))
    have h2 : tasks.countP (fun a => !decide (a.status = TaskStatus.active)) =
        tasks.countP (fun a => ¬(decide (a.status = TaskStatus.active)) = true) := by
      apply List.countP_congr
      intro a _
      simp
    omega
  · rw [statsFold_overdue, statsFold_active]
    simp only [Nat.zero_add]
    apply List.countP_mono_left
    intro t _ h
    unfold isOverdueAt at h
    exact (Bool.and_eq_true _ _ ▸ h).1

/-- **C5.** For every cached task collection, the recomputed `overdue`
statistic equals the count of `active` tasks whose due date is strictly
before the current date (date-only comparison); `active` and `completed`
equal the direct status counts, and `total` equals the collection size
(`calculateStats`, task-service.ts). -/
theorem calculateStats_counts (today : Nat) (tasks : List Task) :
    (calculateStats today tasks).total = tasks.length
    ∧ (calculateStats today tasks).active =
        (tasks.filter (fun t => decide (t.status = TaskStatus.active))).length
    ∧ (calculateStats today tasks).completed =
        (tasks.filter (fun t => decide (t.status = TaskStatus.completed))).length
    ∧ (calculateStats today tasks).overdue =
        (tasks.filter (isOverdueAt today)).length := by
  unfold calculateStats
  refine ⟨statsFold_total _ _ _, ?_, ?_, ?_⟩
  · rw [statsFold_active, ← List.countP_eq_length_filter]
    simp
  · rw [statsFold_completed, ← List.countP_eq_length_filter]
    simp only [Nat.zero_add]
    apply List.countP_congr
    intro t _
    cases h : t.status <;> simp [h]
  · rw [statsFold_overdue, ← List.countP_eq_length_filter]
    simp

/-! ## Mock backend collection order (`MockService.getTasks`)

`getTasks` returns `[...this.tasks].sort((a, b) => b.updated_at - a.updated_at)`
(descending by `updated_at`).  The embedding uses a stable insertion sort,
matching the stable sort of modern JavaScript engines; every claim below
depends only on the sorted list's membership, so the exact tie order is
irrelevant to the theorems. -/

/-- Insert a task in front of the first element with an `updated_at` not
above its own (descending order by `updated_at`). -/
def insertByUpdated (t : Task) : List Task → List Task
  | [] => [t]
  | x :: xs =>
    if x.updated_at ≤ t.updated_at then t :: x :: xs
    else x :: insertByUpdated t xs

/-- The sorted copy returned by `MockService.getTasks`: descending by
`updated_at`. -/
def sortByUpdatedDesc (l : List Task) : List Task :=
  l.foldr insertByUpdated []

theorem mem_insertByUpdated (a t : Task) (l : List Task) :
    a ∈ insertByUpdated t l ↔ a = t ∨ a ∈ l := by
  induction l with
  | nil => simp [insertByUpdated]
  | cons x xs ih =>
    unfold insertByUpdated
    split
    · simp [List.mem_cons]
    · simp only [List.mem_cons, ih]
      tauto

theorem mem_sortByUpdatedDesc (a : Task) (l : List Task) :
    a ∈ sortByUpdatedDesc l ↔ a ∈ l := by
  induction l with
  | nil => simp [sortByUpdatedDesc]
  | cons x xs ih =>
    show a ∈ insertByUpdated x (sortByUpdatedDesc xs) ↔ _
    rw [mem_insertByUpdated]
    simp [ih]

/-! ## Task view-model state (useTaskViewModel.ts) and the mock server -/

/-- `TaskViewModelState` from useTaskViewModel.ts. -/
structure TaskViewState where
  tasks : List Task
  taskStats : TaskStats
  isLoading : Bool
  error : Option String
deriving DecidableEq

/-- Client view-model state paired with the mock backend's authoritative
store (`MockService.tasks`): the two independently mutated copies the
reconciliation protocol keeps consistent. -/
structure SystemState where
  server : List Task
  view : TaskViewState
deriving DecidableEq

/-- `refreshTasks` (useTaskViewModel.ts, success path, mock backend):
fetch the authoritative collection (sorted), fetch recomputed statistics,
clear the error and the loading flag.  The mock `getTasks` never fails, so
the success path is the only reachable one. -/
def refreshTasksFn (today : Nat) (s : SystemState) : SystemState :=
  { s with
    view :=
      { tasks := sortByUpdatedDesc s.server
        taskStats := calculateStats today (sortByUpdatedDesc s.server)
        isLoading := false
        error := none } }

/-- The task-mutation handler registered with the Conversation Coordinator
(`handleSubmit` in the chat interface component):
`sendMessage(message, (action) => { refreshTasks(); })` — it refreshes the
task list after any agent action, ignoring the action itself. -/
def handleAgentAction (today : Nat) (a : TaskAction) (s : SystemState) :
    SystemState :=
  match a with
  | _ => refreshTasksFn today s

/-- The per-intent application the specification describes for
`applyMutation(intent)`: `create` inserts the returned task at the head of
the cached collection; `update` replaces the entry by id if present
(ignored if absent); `delete` removes the entry by id (no-op if absent);
`list`/`filter` replace the entire visible collection with the provided
set.  Stated from the specification's words, for comparison with the
handler the source actually registers. -/
def applyMutationSpec (a : TaskAction) (cached : List Task) : List Task :=
  match a with
  | TaskAction.create t => t :: cached
  | TaskAction.update t => cached.map (fun x => if x.id = t.id then t else x)
  | TaskAction.delete i => cached.filter (fun x => x.id ≠ i)
  | TaskAction.list ts => ts
  | TaskAction.filter ts => ts

/-- A concrete cached task, present in the client cache but no longer on
the server (deleted concurrently). -/
def staleTask : Task :=
  { id := 1, title := "Review project proposal", description := ""
    status := TaskStatus.active, priority := TaskPriority.high
    due_date := some 100, created_at := 0, updated_at := 0 }

/-- A concrete state in which the cache holds `staleTask` while the
authoritative store is empty. -/
def staleSystem : SystemState :=
  { server := []
    view := { tasks := [staleTask]
              taskStats := calculateStats 0 [staleTask]
              isLoading := false, error := none } }

/-- **C1, counterexample.** The registered mutation handler does not apply
the intent itself: for an `update` intent whose id is absent from the
cache, the specification's per-intent application leaves the cached
collection untouched, but the registered handler replaces it with a fresh
fetch of the authoritative collection.  Concretely, with cache
`[staleTask]` and an empty server, an `update` intent for id 99 must be
ignored per the claim, yet the handler empties the cache. -/
theorem handleAgentAction_ne_applyMutationSpec :
    (handleAgentAction 0
        (TaskAction.update { staleTask with id := 99 }) staleSystem).view.tasks
      ≠ applyMutationSpec
          (TaskAction.update { staleTask with id := 99 })
          staleSystem.view.tasks := by
  decide

/-- **C1, amended.** For every agent-issued task-mutation intent handed to
the registered mutation handler, the handler ignores the intent's type and
payload entirely and instead replaces the whole cached collection (and its
statistics) with a freshly fetched authoritative collection via
`refreshTasks` — no head-insertion for `create`, no by-id replacement for
`update`, no by-id removal for `delete`, and `list`/`filter` install the
freshly fetched set rather than the provided one. -/
theorem handleAgentAction_refreshes (today : Nat) (a b : TaskAction)
    (s : SystemState) :
    handleAgentAction today a s = refreshTasksFn today s
    ∧ (handleAgentAction today a s).view.tasks = sortByUpdatedDesc s.server
    ∧ (handleAgentAction today a s).view.taskStats =
        calculateStats today (sortByUpdatedDesc s.server)
    ∧ handleAgentAction today a s = handleAgentAction today b s := by
  refine ⟨?_, ?_, ?_, ?_⟩ <;> cases a <;> cases b <;> rfl

/-! ## Mock backend `createTask` (MockService.createTask) -/

/-- JavaScript `v || d` for an optional string: the default replaces both
a missing value and the (falsy) empty string. -/
def jsStringOr (v : Option String) (d : String) : String :=
  match v with
  | none => d
  | some s => if s = "" then d else s

/-- `MockService.createTask`: builds the new task from the supplied DTO
with `id = Date.now()` (here: the supplied fresh id), `title` defaulting
through JavaScript falsiness, `description || ""`, status `active`,
`priority || 'medium'`, and both timestamps set to the creation instant. -/
def mockCreateTask (newId now : Nat) (td : TaskCreate) : Task :=
  { id := newId
    title := jsStringOr td.title "Untitled Task"
    description := jsStringOr td.description ""
    status := TaskStatus.active
    priority := td.priority.getD TaskPriority.medium
    due_date := td.due_date
    created_at := now
    updated_at := now }

/-- **C10.** Every task returned by the mock backend's `createTask` has
status `active`; its title defaults to `"Untitled Task"` when the supplied
title is absent or empty, its description defaults to the empty string
when absent, and its priority defaults to `medium` when absent
(`MockService.createTask`). -/
theorem mockCreateTask_defaults (newId now : Nat) (td : TaskCreate) :
    (mockCreateTask newId now td).status = TaskStatus.active
    ∧ (td.title = none ∨ td.title = some "" →
        (mockCreateTask newId now td).title = "Untitled Task")
    ∧ (td.description = none →
        (mockCreateTask newId now td).description = "")
    ∧ (td.priority = none →
        (mockCreateTask newId now td).priority = TaskPriority.medium) := by
  refine ⟨rfl, ?_, ?_, ?_⟩
  · rintro (h | h) <;> simp [mockCreateTask, jsStringOr, h]
  · intro h
    simp [mockCreateTask, jsStringOr, h]
  · intro h
    simp [mockCreateTask, h]

/-- **C10, witness.** The defaults evaluated at the empty DTO. -/
theorem mockCreateTask_defaults_witness :
    (mockCreateTask 7 3 {}).status = TaskStatus.active
    ∧ (mockCreateTask 7 3 {}).title = "Untitled Task"
    ∧ (mockCreateTask 7 3 {}).description = ""
    ∧ (mockCreateTask 7 3 {}).priority = TaskPriority.medium := by
  have h := mockCreateTask_defaults 7 3 {}
  exact ⟨h.1, h.2.1 (Or.inl rfl), h.2.2.1 rfl, h.2.2.2 rfl⟩

/-! ## Status toggling with optimistic update and reconciliation
(useTaskViewModel.ts `toggleTaskStatus`, task-service.ts `toggleTaskStatus`,
MockService `updateTask`). -/

/-- `status === 'active' ? 'completed' : 'active'` — the flip used both for
the optimistic guess (useTaskViewModel.ts) and for the confirmed update
(task-service.ts). -/
def toggledOf (st : TaskStatus) : TaskStatus :=
  if st = TaskStatus.active then TaskStatus.completed else TaskStatus.active

/-- `MockService.updateTask(id, {status})`: find the first index whose task
has the given id, replace that entry with the spread-updated task (new
status, `updated_at := now`), and return the updated entry; `none` models
the thrown `"Task not found"`. -/
def updateFirstById (now : Nat) (st : TaskStatus) (i : Nat) :
    List Task → Option (List Task × Task)
  | [] => none
  | t :: ts =>
    if t.id = i then
      let u := { t with status := st, updated_at := now }
      some (u :: ts, u)
    else
      match updateFirstById now st i ts with
      | none => none
      | some (ts', u) => some (t :: ts', u)

/-- `TaskService.toggleTaskStatus` (mock path): `getTask(id)` scans the
sorted copy returned by `getTasks`; a missing task — or an injected
rejection (`reject = true`, modelling the remote call being rejected or
throwing; the view-model treats `success:false` and a throw identically) —
yields `(unchanged store, none)`; otherwise the status is flipped and
`updateTask` is applied to the authoritative store. -/
def serviceToggleTaskStatus (reject : Bool) (now i : Nat)
    (server : List Task) : List Task × Option Task :=
  if reject then (server, none)
  else
    match (sortByUpdatedDesc server).find? (fun t => decide (t.id = i)) with
    | none => (server, none)
    | some cur =>
      match updateFirstById now (toggledOf cur.status) i server with
      | none => (server, none)
      | some (server', u) => (server', some u)

/-- `toggleTaskStatus` (useTaskViewModel.ts): clear the error, apply the
optimistic flip to the cached entry, then issue the confirming request.
On success, replace the cached entry by id with the server-confirmed task
and refresh statistics; on failure, discard the optimistic value by
reloading the authoritative collection in full (`refreshTasks`) and record
a recoverable error string. -/
def toggleTaskStatusVM (reject : Bool) (now today i : Nat)
    (s : SystemState) : SystemState :=
  let v0 : TaskViewState := { s.view with error := none }
  let v1 : TaskViewState :=
    { v0 with
      tasks := v0.tasks.map (fun t =>
        if t.id = i then { t with status := toggledOf t.status } else t) }
  match serviceToggleTaskStatus reject now i s.server with
  | (server', some confirmed) =>
    let v2 : TaskViewState :=
      { v1 with
        tasks := v1.tasks.map (fun t : Task => if t.id = i then confirmed else t) }
    let v3 : TaskViewState :=
      { v2 with taskStats := calculateStats today (sortByUpdatedDesc server') }
    { server := server', view := v3 }
  | (server', none) =>
    let s1 : SystemState := refreshTasksFn today { server := server', view := v1 }
    { s1 with view := { s1.view with error := some "Failed to update task status" } }

/-- **C2.** For every `toggleStatus(id)` call whose confirming request
fails (modelled by `reject = true`: the service reported `success:false`
or threw), the optimistic status flip is discarded by reloading the
authoritative collection in full and a recoverable error is recorded; in
particular, when every server task with that id has status `active` (the
spec's scenario: toggling an `active` task followed by a server
rejection), every cached task with that id has status `active` again after
the reload. -/
theorem toggleStatus_rejected_rolls_back (now today i : Nat) (s : SystemState)
    (hact : ∀ t ∈ s.server, t.id = i → t.status = TaskStatus.active) :
    (toggleTaskStatusVM true now today i s).server = s.server
    ∧ (toggleTaskStatusVM true now today i s).view.tasks =
        sortByUpdatedDesc s.server
    ∧ (toggleTaskStatusVM true now today i s).view.error.isSome
    ∧ ∀ t ∈ (toggleTaskStatusVM true now today i s).view.tasks,
        t.id = i → t.status = TaskStatus.active := by
  refine ⟨rfl, rfl, rfl, ?_⟩
  intro t ht hid
  have hmem : t ∈ s.server := by
    have : t ∈ sortByUpdatedDesc s.server := ht
    exact (mem_sortByUpdatedDesc t s.server).mp this
  exact hact t hmem hid

/-- A concrete synced state for the rejection scenario: one `active` task
with id 5 on the server, cache freshly loaded. -/
def rejectionScenario : SystemState :=
  { server := [{ id := 5, title := "Buy groceries", description := ""
                 status := TaskStatus.active, priority := TaskPriority.medium
                 due_date := some 20, created_at := 1, updated_at := 1 }]
    view := { tasks := [{ id := 5, title := "Buy groceries", description := ""
                          status := TaskStatus.active
                          priority := TaskPriority.medium
                          due_date := some 20, created_at := 1, updated_at := 1 }]
              taskStats := { total := 1, active := 1, completed := 0, overdue := 0 }
              isLoading := false, error := none } }

/-- **C2, witness.** `toggleStatus(5)` on an `active` task followed by a
simulated server rejection: the cached status for id 5 reverts to `active`
after the reload and an error is recorded. -/
theorem toggleStatus_rejected_rolls_back_witness :
    (toggleTaskStatusVM true 2 0 5 rejectionScenario).view.error.isSome
    ∧ ∀ t ∈ (toggleTaskStatusVM true 2 0 5 rejectionScenario).view.tasks,
        t.id = 5 → t.status = TaskStatus.active := by
  have h := toggleStatus_rejected_rolls_back 2 0 5 rejectionScenario
    (by decide)
  exact ⟨h.2.2.1, h.2.2.2⟩

/-! ## Toggle parity (sequences of `toggleStatus` calls) -/

theorem toggledOf_toggledOf (st : TaskStatus) : toggledOf (toggledOf st) = st := by
  cases st <;> rfl

/-- The status reached from `s0` after `n` successful flips: `s0` for even
`n`, the flipped status for odd `n` (the claim's XOR of the initial status
with the parity of successful toggles). -/
def toggledStatus (s0 : TaskStatus) (n : Nat) : TaskStatus :=
  if n % 2 = 0 then s0 else toggledOf s0

theorem toggledStatus_succ (s0 : TaskStatus) (n : Nat) :
    toggledStatus s0 (n + 1) = toggledStatus (toggledOf s0) n := by
  unfold toggledStatus
  rcases Nat.mod_two_eq_zero_or_one n with h | h
  · have h1 : (n + 1) % 2 = 1 := by omega
    simp [h, h1]
  · have h1 : (n + 1) % 2 = 0 := by omega
    simp [h, h1, toggledOf_toggledOf]

/-- Properties of `MockService.updateTask` on a store with unique ids that
contains the target: it succeeds, the returned entry carries the new
status, ids (hence uniqueness) are preserved, and the returned entry is the
unique store entry with the target id. -/
theorem updateFirstById_nodup_spec (now : Nat) (st : TaskStatus) (i : Nat)
    (l : List Task) (hnd : (l.map (fun t => t.id)).Nodup)
    (hpres : ∃ t ∈ l, t.id = i) :
    ∃ l' u, updateFirstById now st i l = some (l', u)
      ∧ u.id = i ∧ u.status = st ∧ u ∈ l'
      ∧ l'.map (fun t => t.id) = l.map (fun t => t.id)
      ∧ ∀ t ∈ l', t.id = i → t = u := by
  induction l with
  | nil => simp at hpres
  | cons x xs ih =>
    rw [List.map_cons, List.nodup_cons] at hnd
    by_cases hx : x.id = i
    · refine ⟨{ x with status := st, updated_at := now } :: xs,
        { x with status := st, updated_at := now }, ?_, hx, rfl,
        List.mem_cons_self _ _, by simp, ?_⟩
      · unfold updateFirstById
        simp [hx]
      · intro t ht hti
        rcases List.mem_cons.mp ht with h | h
        · exact h
        · exfalso
          apply hnd.1
          rw [hx, ← hti]
          exact List.mem_map_of_mem (fun t => t.id) h
    · have hpres' : ∃ t ∈ xs, t.id = i := by
        rcases hpres with ⟨t, ht, hti⟩
        rcases List.mem_cons.mp ht with rfl | h
        · exact absurd hti hx
        · exact ⟨t, h, hti⟩
      rcases ih hnd.2 hpres' with ⟨xs', u, heq, hui, hust, humem, hids, huniq⟩
      refine ⟨x :: xs', u, ?_, hui, hust, List.mem_cons_of_mem _ humem,
        by simp [hids], ?_⟩
      · unfold updateFirstById
        simp [hx, heq]
      · intro t ht hti
        rcases List.mem_cons.mp ht with rfl | h
        · exact absurd hti hx
        · exact huniq t h hti

/-- The consistency relation tracked by the reconciliation protocol for a
single task id: server ids are unique, the task is present on the server
and in the cache, and both copies record the same status `σ` for it. -/
def TrackedStatus (i : Nat) (σ : TaskStatus) (s : SystemState) : Prop :=
  (s.server.map (fun t => t.id)).Nodup
  ∧ (∃ t ∈ s.server, t.id = i)
  ∧ (∀ t ∈ s.server, t.id = i → t.status = σ)
  ∧ (∃ t ∈ s.view.tasks, t.id = i)
  ∧ (∀ t ∈ s.view.tasks, t.id = i → t.status = σ)

/-- A rejected toggle leaves the authoritative store untouched and reloads
the cache from it, so the tracked status is unchanged. -/
theorem toggle_reject_tracked (now today i : Nat) (σ : TaskStatus)
    (s : SystemState) (h : TrackedStatus i σ s) :
    TrackedStatus i σ (toggleTaskStatusVM true now today i s) := by
  rcases h with ⟨hnd, hpres, hsrv, -, -⟩
  refine ⟨hnd, hpres, hsrv, ?_, ?_⟩
  · rcases hpres with ⟨t, ht, hti⟩
    exact ⟨t, (mem_sortByUpdatedDesc t s.server).mpr ht, hti⟩
  · intro t ht hti
    exact hsrv t ((mem_sortByUpdatedDesc t s.server).mp ht) hti

/-- A successful toggle flips the tracked status on the server and
installs the server-confirmed entry in the cache. -/
theorem toggle_success_tracked (now today i : Nat) (σ : TaskStatus)
    (s : SystemState) (h : TrackedStatus i σ s) :
    TrackedStatus i (toggledOf σ) (toggleTaskStatusVM false now today i s) := by
  rcases h with ⟨hnd, hpres, hsrv, hcpres, -⟩
  -- `getTask` on the sorted copy finds an entry with the target id.
  have hfind : ∃ cur, (sortByUpdatedDesc s.server).find?
      (fun t => decide (t.id = i)) = some cur := by
    have : ((sortByUpdatedDesc s.server).find?
        (fun t => decide (t.id = i))).isSome := by
      rw [List.find?_isSome]
      rcases hpres with ⟨t, ht, hti⟩
      exact ⟨t, (mem_sortByUpdatedDesc t s.server).mpr ht, by simp [hti]⟩
    exact Option.isSome_iff_exists.mp this
  rcases hfind with ⟨cur, hcur⟩
  have hcuri : cur.id = i := by
    have := List.find?_some hcur
    simpa using this
  have hcurstat : cur.status = σ :=
    hsrv cur ((mem_sortByUpdatedDesc cur s.server).mp
      (List.mem_of_find?_eq_some hcur)) hcuri
  rcases updateFirstById_nodup_spec now (toggledOf cur.status) i s.server hnd
      hpres with ⟨server', u, hupd, hui, hust, humem, hids, huniq⟩
  have hsvc : serviceToggleTaskStatus false now i s.server =
      (server', some u) := by
    unfold serviceToggleTaskStatus
    simp [hcur, hupd]
  have hustσ : u.status = toggledOf σ := by rw [hust, hcurstat]
  refine ⟨?_, ⟨u, ?_, hui⟩, ?_, ?_, ?_⟩
  · show ((toggleTaskStatusVM false now today i s).server.map
      (fun t => t.id)).Nodup
    unfold toggleTaskStatusVM
    rw [hsvc]
    simpa [hids] using hnd
  · show u ∈ (toggleTaskStatusVM false now today i s).server
    unfold toggleTaskStatusVM
    rw [hsvc]
    exact humem
  · intro t ht hti
    have ht' : t ∈ server' := by
      have : (toggleTaskStatusVM false now today i s).server = server' := by
        unfold toggleTaskStatusVM
        rw [hsvc]
      rwa [this] at ht
    rw [huniq t ht' hti, hustσ]
  · rcases hcpres with ⟨t0, ht0, ht0i⟩
    refine ⟨u, ?_, hui⟩
    show u ∈ (toggleTaskStatusVM false now today i s).view.tasks
    unfold toggleTaskStatusVM
    rw [hsvc]
    simp only []
    have h1 : (if t0.id = i then { t0 with status := toggledOf t0.status }
        else t0) ∈ s.view.tasks.map (fun t =>
          if t.id = i then { t with status := toggledOf t.status } else t) :=
      List.mem_map_of_mem _ ht0
    have h2 := List.mem_map_of_mem
      (fun t : Task => if t.id = i then u else t) h1
    simpa [ht0i] using h2
  · intro t ht hti
    have ht' : t ∈ (s.view.tasks.map (fun t =>
        if t.id = i then { t with status := toggledOf t.status } else t)).map
          (fun t : Task => if t.id = i then u else t) := by
      have : (toggleTaskStatusVM false now today i s).view.tasks =
          (s.view.tasks.map (fun t =>
            if t.id = i then { t with status := toggledOf t.status } else t)).map
              (fun t : Task => if t.id = i then u else t) := by
        unfold toggleTaskStatusVM
        rw [hsvc]
      rwa [this] at ht
    rcases List.mem_map.mp ht' with ⟨x, -, hx⟩
    by_cases hxi : x.id = i
    · rw [if_pos hxi] at hx
      rw [← hx, hustσ]
    · rw [if_neg hxi] at hx
      exact absurd (hx ▸ hti) hxi

/-- A finite sequence of `toggleStatus(id)` calls: each element is the
success flag of the confirming request (`true` = confirmed, `false` =
rejected/thrown) together with the server timestamp of that call. -/
def runToggles (i today : Nat) : List (Bool × Nat) → SystemState → SystemState
  | [], s => s
  | c :: rest, s =>
    runToggles i today rest (toggleTaskStatusVM (!c.1) c.2 today i s)

theorem runToggles_tracked (i today : Nat) (calls : List (Bool × Nat))
    (σ : TaskStatus) (s : SystemState) (h : TrackedStatus i σ s) :
    TrackedStatus i (toggledStatus σ (calls.countP (fun c => c.1)))
      (runToggles i today calls s) := by
  induction calls generalizing s σ with
  | nil =>
    simpa [runToggles, toggledStatus] using h
  | cons c rest ih =>
    rw [List.countP_cons]
    cases hc : c.1
    · have h' := toggle_reject_tracked c.2 today i σ s h
      have := ih σ _ h'
      simpa [runToggles, hc] using this
    · have h' := toggle_success_tracked c.2 today i σ s h
      have h2 := ih (toggledOf σ) _ h'
      have h3 : rest.countP (fun c => c.1) + (if (true : Bool) = true then 1 else 0) =
          rest.countP (fun c => c.1) + 1 := by simp
      rw [h3, toggledStatus_succ]
      simpa [runToggles, hc] using h2

/-- **C3.** For every task (identified by `i`) that is never independently
deleted — the runs below consist of `toggleStatus` calls only — and every
finite sequence of `toggleStatus` calls on its id, the final cached status
of that task equals the XOR of its initial status and the parity of the
successful toggles in the sequence (`toggledStatus σ (count of successful
calls)`).  Hypotheses: server ids are unique, the task is on the server
with status `σ`, and the cache is a freshly loaded snapshot of the server
(the state `useTaskViewModel` establishes on mount via `refreshTasks`). -/
theorem toggleStatus_parity (i today : Nat) (calls : List (Bool × Nat))
    (σ : TaskStatus) (s : SystemState)
    (hnd : (s.server.map (fun t => t.id)).Nodup)
    (hpres : ∃ t ∈ s.server, t.id = i)
    (hsrv : ∀ t ∈ s.server, t.id = i → t.status = σ)
    (hsync : s.view.tasks = sortByUpdatedDesc s.server) :
    (∃ t ∈ (runToggles i today calls s).view.tasks, t.id = i)
    ∧ ∀ t ∈ (runToggles i today calls s).view.tasks, t.id = i →
        t.status = toggledStatus σ (calls.countP (fun c => c.1)) := by
  have h0 : TrackedStatus i σ s := by
    refine ⟨hnd, hpres, hsrv, ?_, ?_⟩
    · rcases hpres with ⟨t, ht, hti⟩
      exact ⟨t, by rw [hsync]; exact (mem_sortByUpdatedDesc t s.server).mpr ht, hti⟩
    · intro t ht hti
      rw [hsync] at ht
      exact hsrv t ((mem_sortByUpdatedDesc t s.server).mp ht) hti
  have h := runToggles_tracked i today calls σ s h0
  exact ⟨h.2.2.2.1, h.2.2.2.2⟩

/-- **C3, witness.** Three calls on id 5 of which two succeed: the cached
status ends equal to the initial `active` (even parity), with the task
still present. -/
theorem toggleStatus_parity_witness :
    (∃ t ∈ (runToggles 5 0 [(true, 2), (false, 3), (true, 4)]
        rejectionScenario).view.tasks, t.id = 5)
    ∧ ∀ t ∈ (runToggles 5 0 [(true, 2), (false, 3), (true, 4)]
        rejectionScenario).view.tasks, t.id = 5 →
          t.status = toggledStatus TaskStatus.active 2 := by
  have h := toggleStatus_parity 5 0 [(true, 2), (false, 3), (true, 4)]
    TaskStatus.active rejectionScenario (by decide) (by decide) (by decide)
    (by decide)
  exact h

/-! ## Chat view-model (useChatViewModel, chat.types) -/

/-- `MessageType = 'user' | 'agent' | 'system'`. -/
inductive MessageType where
  | user
  | agent
  | system
deriving DecidableEq

/-- `ChatStatus = 'connected' | 'connecting' | 'disconnected' | 'error'`. -/
inductive ChatStatus where
  | connected
  | connecting
  | disconnected
  | error
deriving DecidableEq

/-- `ChatMessage` from chat.types; the timestamp is an abstract instant. -/
structure ChatMessage where
  id : String
  type : MessageType
  content : String
  timestamp : Nat
deriving DecidableEq

/-- `DEFAULT_MESSAGES.WELCOME` (src/lib/constants.ts). -/
def WELCOME : String :=
  "👋 Hello! I\x27m your AI task assistant. How can I help you today? You can ask me to create, update, list, or delete tasks for you."

/-- The seeded welcome message (`useChatViewModel`: id `'1'`, type
`'agent'`, content `DEFAULT_MESSAGES.WELCOME`). -/
def welcomeMessage (now : Nat) : ChatMessage :=
  { id := "1", type := MessageType.agent, content := WELCOME, timestamp := now }

/-- `ChatViewModelState` from useChatViewModel. -/
structure ChatState where
  messages : List ChatMessage
  isProcessing : Bool
  connectionStatus : ChatStatus
  error : Option String
deriving DecidableEq

/-- `clearMessages` (useChatViewModel): reset the transcript to the single
seeded welcome message and clear the error, leaving the other state fields
(`isProcessing`, `connectionStatus`) untouched. -/
def clearMessagesFn (now : Nat) (s : ChatState) : ChatState :=
  { s with messages := [welcomeMessage now], error := none }

/-- **C9.** For every prior transcript, regardless of its length,
`clearMessages()` yields a transcript of length 1 containing the seeded
welcome message, clears any recorded error, and leaves the connection
state (and the processing flag) unchanged. -/
theorem clearMessages_resets (now : Nat) (s : ChatState) :
    (clearMessagesFn now s).messages.length = 1
    ∧ (clearMessagesFn now s).messages = [welcomeMessage now]
    ∧ (clearMessagesFn now s).error = none
    ∧ (clearMessagesFn now s).connectionStatus = s.connectionStatus
    ∧ (clearMessagesFn now s).isProcessing = s.isProcessing :=
  ⟨rfl, rfl, rfl, rfl, rfl⟩

/-! ## Connection Manager (WebSocketService)

State of the singleton `WebSocketService`, plus enough of the browser
environment to reason about events: a multiset of scheduled-but-unfired
reconnect timers (each with a fresh identity and its `setTimeout` delay),
and a count of sockets the service closed itself whose `close` event has
not yet fired (`ws.close()` in `handleError`/`disconnect` detaches
`this.ws` but the handler still runs when the event arrives).  `ws` holds
the ready state of the socket currently referenced by `this.ws`
(`CONNECTING` or `OPEN`; the reference is nulled on close/error, so no
other ready state is observable through it). -/

/-- The `WebSocket.readyState` values observable through `this.ws`. -/
inductive ReadyState where
  | CONNECTING
  | OPEN
deriving DecidableEq

/-- One scheduled reconnect timer: its identity (the `setTimeout` handle)
and its delay in milliseconds (exact rational, as JavaScript computes
`1000 * 1.5^n` exactly for the exponents reachable here). -/
structure ReconnectTimer where
  tid : Nat
  delay : ℚ
deriving DecidableEq

/-- `WebSocketService` fields plus the environment bookkeeping described
above.  `reconnectTimeout` is the handle stored in `this.reconnectTimeout`
(it is not cleared when its timer fires, so it can go stale);
`pendingTimers` are all scheduled, unfired timers; `nextTid` generates
fresh handles. -/
structure ConnState where
  ws : Option ReadyState
  reconnectAttempts : Nat
  pendingTimers : List ReconnectTimer
  reconnectTimeout : Option Nat
  status : ChatStatus
  isManualDisconnect : Bool
  zombies : Nat
  nextTid : Nat
deriving DecidableEq

/-- `maxReconnectAttempts = 5`. -/
def maxReconnectAttempts : Nat := 5

/-- `updateStatus`: store the new status (listener fan-out carries no
further service state). -/
def updateStatus (st : ChatStatus) (s : ConnState) : ConnState :=
  { s with status := st }

/-- `Math.min` on (finite) numbers: the smaller argument. -/
def jsMin (a b : ℚ) : ℚ :=
  if a ≤ b then a else b

theorem jsMin_eq_min (a b : ℚ) : jsMin a b = min a b := by
  rw [jsMin, min_def]

/-- The delay the source computes for exponent `n`:
`Math.min(1000 * Math.pow(1.5, n), 10000)`. -/
def reconnectDelay (n : Nat) : ℚ :=
  jsMin (1000 * (3 / 2 : ℚ) ^ n) 10000

/-- `tryReconnect`: bail out on a manual disconnect or once the attempt
counter has reached the cap; otherwise increment the counter FIRST, then
schedule a timer with delay `min(1000 * 1.5^(incremented counter), 10000)`
and store its handle in `reconnectTimeout` — without cancelling any
previously scheduled timer. -/
def tryReconnect (s : ConnState) : ConnState :=
  if s.isManualDisconnect ∨ maxReconnectAttempts ≤ s.reconnectAttempts then s
  else
    let attempts := s.reconnectAttempts + 1
    { s with
      reconnectAttempts := attempts
      pendingTimers :=
        s.pendingTimers ++ [{ tid := s.nextTid, delay := reconnectDelay attempts }]
      reconnectTimeout := some s.nextTid
      nextTid := s.nextTid + 1 }

/-- `connect()`: a no-op while `this.ws` is `CONNECTING` or `OPEN`;
otherwise set status `connecting` and open a fresh transport.  It does not
touch `reconnectTimeout` or any pending timer. -/
def connectFn (s : ConnState) : ConnState :=
  match s.ws with
  | some _ => s
  | none => { updateStatus ChatStatus.connecting s with ws := some ReadyState.CONNECTING }

/-- `disconnect()`: set the manual flag, `clearTimeout` the handle stored
in `reconnectTimeout` (cancelling that one timer, if it is still pending),
close and drop the transport, and set status `disconnected`. -/
def disconnectFn (s : ConnState) : ConnState :=
  let s1 : ConnState := { s with isManualDisconnect := true }
  let s2 : ConnState :=
    match s1.reconnectTimeout with
    | some tid =>
      { s1 with
        pendingTimers := s1.pendingTimers.filter (fun t => t.tid ≠ tid)
        reconnectTimeout := none }
    | none => s1
  let s3 : ConnState :=
    match s2.ws with
    | some _ => { s2 with ws := none, zombies := s2.zombies + 1 }
    | none => s2
  updateStatus ChatStatus.disconnected s3

/-- `isConnected()`: the transport reference exists and is `OPEN`. -/
def isConnected (s : ConnState) : Bool :=
  decide (s.ws = some ReadyState.OPEN)

/-- `sendMessage`: when not connected, set status `error` and invoke
`tryReconnect`; when connected, the send succeeds and no service state
changes (the send-throw branch only sets the same `error` status). -/
def sendMessageFn (s : ConnState) : ConnState :=
  if isConnected s then s
  else tryReconnect (updateStatus ChatStatus.error s)

/-- `handleOpen`: reset the attempt counter and the manual flag, status
`connected`. -/
def handleOpen (s : ConnState) : ConnState :=
  updateStatus ChatStatus.connected
    { s with reconnectAttempts := 0, isManualDisconnect := false }

/-- `handleClose`: drop the transport reference; on a non-manual close,
set status `disconnected` and invoke `tryReconnect`. -/
def handleClose (s : ConnState) : ConnState :=
  let s1 : ConnState := { s with ws := none }
  if s1.isManualDisconnect then s1
  else tryReconnect (updateStatus ChatStatus.disconnected s1)

/-- `handleError`: set status `error`, close and drop the transport if one
is referenced (its `close` event will still fire later), and on a
non-manual error invoke `tryReconnect`. -/
def handleError (s : ConnState) : ConnState :=
  let s1 : ConnState := updateStatus ChatStatus.error s
  let s2 : ConnState :=
    match s1.ws with
    | some _ => { s1 with ws := none, zombies := s1.zombies + 1 }
    | none => s1
  if s2.isManualDisconnect then s2 else tryReconnect s2

/-- Environment-driven events: a scheduled timer fires (running
`connect()`), the current transport opens, closes, or errors, or the
`close` event of a socket the service itself closed finally arrives.  No
constructor exists for a transport event without a transport, nor for a
timer that is not pending. -/
inductive AutoStep : ConnState → ConnState → Prop where
  | timerFires (s : ConnState) (t : ReconnectTimer) (h : t ∈ s.pendingTimers) :
      AutoStep s (connectFn { s with pendingTimers := s.pendingTimers.erase t })
  | transportOpen (s : ConnState) (h : s.ws = some ReadyState.CONNECTING) :
      AutoStep s (handleOpen { s with ws := some ReadyState.OPEN })
  | transportClose (s : ConnState) (rs : ReadyState) (h : s.ws = some rs) :
      AutoStep s (handleClose s)
  | transportError (s : ConnState) (rs : ReadyState) (h : s.ws = some rs) :
      AutoStep s (handleError s)
  | zombieClose (s : ConnState) (h : s.zombies ≠ 0) :
      AutoStep s (handleClose { s with zombies := s.zombies - 1 })

/-- Full step relation: environment events plus the public operations a
caller can invoke. -/
inductive Step : ConnState → ConnState → Prop where
  | auto (s s' : ConnState) (h : AutoStep s s') : Step s s'
  | userConnect (s : ConnState) : Step s (connectFn s)
  | userDisconnect (s : ConnState) : Step s (disconnectFn s)
  | userSend (s : ConnState) : Step s (sendMessageFn s)

/-- The singleton's initial state: no transport, no attempts, no timers,
status `disconnected`. -/
def initState : ConnState :=
  { ws := none, reconnectAttempts := 0, pendingTimers := []
    reconnectTimeout := none, status := ChatStatus.disconnected
    isManualDisconnect := false, zombies := 0, nextTid := 0 }

/-- States the service can reach from its initial state. -/
def Reachable (s : ConnState) : Prop :=
  Relation.ReflTransGen Step initState s

/-- Executable event labels, for exhibiting concrete reachable states. -/
inductive WsEvent where
  | timerFires (t : ReconnectTimer)
  | transportOpen
  | transportClose
  | transportError
  | zombieClose
  | userConnect
  | userDisconnect
  | userSend
deriving DecidableEq

/-- Run one event label: environment labels whose side condition fails are
ignored (they cannot occur), so every label run is a `Step` or a no-op. -/
def runEvent (e : WsEvent) (s : ConnState) : ConnState :=
  match e with
  | WsEvent.timerFires t =>
    if t ∈ s.pendingTimers then
      connectFn { s with pendingTimers := s.pendingTimers.erase t }
    else s
  | WsEvent.transportOpen =>
    if s.ws = some ReadyState.CONNECTING then
      handleOpen { s with ws := some ReadyState.OPEN }
    else s
  | WsEvent.transportClose => if s.ws.isSome then handleClose s else s
  | WsEvent.transportError => if s.ws.isSome then handleError s else s
  | WsEvent.zombieClose =>
    if s.zombies ≠ 0 then handleClose { s with zombies := s.zombies - 1 } else s
  | WsEvent.userConnect => connectFn s
  | WsEvent.userDisconnect => disconnectFn s
  | WsEvent.userSend => sendMessageFn s

def runEvents (es : List WsEvent) (s : ConnState) : ConnState :=
  es.foldl (fun s e => runEvent e s) s

theorem runEvent_step (e : WsEvent) (s : ConnState) :
    runEvent e s = s ∨ Step s (runEvent e s) := by
  cases e with
  | timerFires t =>
    by_cases h : t ∈ s.pendingTimers
    · right
      rw [runEvent, if_pos h]
      exact Step.auto _ _ (AutoStep.timerFires s t h)
    · left
      rw [runEvent, if_neg h]
  | transportOpen =>
    by_cases h : s.ws = some ReadyState.CONNECTING
    · right
      rw [runEvent, if_pos h]
      exact Step.auto _ _ (AutoStep.transportOpen s h)
    · left
      rw [runEvent, if_neg h]
  | transportClose =>
    by_cases h : s.ws.isSome
    · right
      rcases Option.isSome_iff_exists.mp h with ⟨rs, hrs⟩
      rw [runEvent, if_pos h]
      exact Step.auto _ _ (AutoStep.transportClose s rs hrs)
    · left
      rw [runEvent, if_neg h]
  | transportError =>
    by_cases h : s.ws.isSome
    · right
      rcases Option.isSome_iff_exists.mp h with ⟨rs, hrs⟩
      rw [runEvent, if_pos h]
      exact Step.auto _ _ (AutoStep.transportError s rs hrs)
    · left
      rw [runEvent, if_neg h]
  | zombieClose =>
    by_cases h : s.zombies ≠ 0
    · right
      rw [runEvent, if_pos h]
      exact Step.auto _ _ (AutoStep.zombieClose s h)
    · left
      rw [runEvent, if_neg h]
  | userConnect => exact Or.inr (Step.userConnect s)
  | userDisconnect => exact Or.inr (Step.userDisconnect s)
  | userSend => exact Or.inr (Step.userSend s)

theorem reachable_runEvents (es : List WsEvent) (s : ConnState)
    (h : Reachable s) : Reachable (runEvents es s) := by
  induction es generalizing s with
  | nil => exact h
  | cons e rest ih =>
    apply ih
    show Reachable (runEvent e s)
    rcases runEvent_step e s with heq | hstep
    · rwa [heq]
    · exact Relation.ReflTransGen.tail h hstep

/-- When neither the manual flag nor the attempt cap blocks it,
`tryReconnect` increments the counter and appends one fresh timer with
delay `reconnectDelay (old attempts + 1)`, overwriting the stored handle
but cancelling nothing. -/
theorem tryReconnect_schedules (s : ConnState)
    (hm : s.isManualDisconnect = false)
    (hc : s.reconnectAttempts < maxReconnectAttempts) :
    tryReconnect s =
      { s with
        reconnectAttempts := s.reconnectAttempts + 1
        pendingTimers := s.pendingTimers ++
          [{ tid := s.nextTid, delay := reconnectDelay (s.reconnectAttempts + 1) }]
        reconnectTimeout := some s.nextTid
        nextTid := s.nextTid + 1 } := by
  rw [tryReconnect, if_neg]
  intro h
  rcases h with h | h
  · rw [hm] at h
    exact Bool.false_ne_true h
  · omega

/-- On a manual disconnect or once the cap is reached, `tryReconnect` does
nothing at all. -/
theorem tryReconnect_noop (s : ConnState)
    (h : s.isManualDisconnect = true ∨
      maxReconnectAttempts ≤ s.reconnectAttempts) :
    tryReconnect s = s := by
  rw [tryReconnect, if_pos]
  rcases h with h | h
  · exact Or.inl (by rw [h])
  · exact Or.inr h

/-- **C6, counterexample.** The transport closes non-manually while
`connected`/`connecting` with attempt count 0: the code schedules the
first retry after `reconnectDelay 1 = 1500` ms, not after
`min(1000 * 1.5^attempt, 10000) = reconnectDelay 0 = 1000` ms as the claim
states for attempt count 0 — in particular the first retry is NOT
scheduled within 1000 ms. -/
theorem reconnect_first_delay_counterexample :
    (connectFn initState).reconnectAttempts = 0
    ∧ (handleClose (connectFn initState)).pendingTimers.map (fun t => t.delay) =
        [reconnectDelay 1]
    ∧ reconnectDelay 1 = 1500
    ∧ reconnectDelay 0 = 1000
    ∧ ¬(reconnectDelay 1 ≤ 1000) := by
  refine ⟨rfl, rfl, ?_, ?_, ?_⟩
  · rw [reconnectDelay, jsMin]
    norm_num
  · rw [reconnectDelay, jsMin]
    norm_num
  · rw [reconnectDelay, jsMin]
    norm_num

/-- A non-manual close below the attempt cap: the attempt counter is
incremented and one timer with delay `reconnectDelay (attempts + 1)` is
appended. -/
theorem handleClose_nonmanual (s : ConnState)
    (hm : s.isManualDisconnect = false)
    (hc : s.reconnectAttempts < maxReconnectAttempts) :
    (handleClose s).pendingTimers = s.pendingTimers ++
      [{ tid := s.nextTid, delay := reconnectDelay (s.reconnectAttempts + 1) }]
    ∧ (handleClose s).reconnectAttempts = s.reconnectAttempts + 1 := by
  rw [handleClose]
  simp only [updateStatus, hm]
  rw [if_neg (by simp [hm])]
  rw [tryReconnect]
  rw [if_neg (by simp [hm]; omega)]
  exact ⟨rfl, rfl⟩

/-- A non-manual transport error below the attempt cap: same scheduling
behavior as a close. -/
theorem handleError_nonmanual (s : ConnState)
    (hm : s.isManualDisconnect = false)
    (hc : s.reconnectAttempts < maxReconnectAttempts) :
    (handleError s).pendingTimers = s.pendingTimers ++
      [{ tid := s.nextTid, delay := reconnectDelay (s.reconnectAttempts + 1) }]
    ∧ (handleError s).reconnectAttempts = s.reconnectAttempts + 1 := by
  rw [handleError]
  cases hws : s.ws with
  | none =>
    simp only [updateStatus, hws]
    rw [if_neg (by simp [hm])]
    rw [tryReconnect]
    rw [if_neg (by simp [hm]; omega)]
    exact ⟨rfl, rfl⟩
  | some rs =>
    simp only [updateStatus, hws]
    rw [if_neg (by simp [hm])]
    rw [tryReconnect]
    rw [if_neg (by simp [hm]; omega)]
    exact ⟨rfl, rfl⟩

/-- **C6, amended.** Whenever the transport closes or errors non-manually
while the attempt count is less than 5, the attempt counter is incremented
and a reconnect is scheduled after exactly
`min(1000 * 1.5^(attempt + 1), 10000)` milliseconds, where `attempt` is
the pre-increment count (the source increments before computing the
delay) — so the first retry is scheduled after 1500 ms, not within
1000 ms; on a manual disconnect or after reaching the cap, no reconnect is
scheduled. -/
theorem reconnect_backoff_schedule (s : ConnState)
    (hm : s.isManualDisconnect = false)
    (hc : s.reconnectAttempts < maxReconnectAttempts) :
    ((handleClose s).pendingTimers = s.pendingTimers ++
        [{ tid := s.nextTid, delay := reconnectDelay (s.reconnectAttempts + 1) }]
      ∧ (handleClose s).reconnectAttempts = s.reconnectAttempts + 1)
    ∧ ((handleError s).pendingTimers = s.pendingTimers ++
        [{ tid := s.nextTid, delay := reconnectDelay (s.reconnectAttempts + 1) }]
      ∧ (handleError s).reconnectAttempts = s.reconnectAttempts + 1)
    ∧ (∀ s' : ConnState,
        s'.isManualDisconnect = true ∨
          maxReconnectAttempts ≤ s'.reconnectAttempts →
        tryReconnect s' = s')
    ∧ reconnectDelay (0 + 1) = 1500 := by
  refine ⟨handleClose_nonmanual s hm hc, handleError_nonmanual s hm hc,
    fun s' h => tryReconnect_noop s' h, ?_⟩
  rw [reconnectDelay, jsMin]
  norm_num

/-- **C6, amended, witness.** The schedule evaluated at the initial state
(attempt count 0, non-manual). -/
theorem reconnect_backoff_schedule_witness :
    ((handleClose initState).pendingTimers = initState.pendingTimers ++
        [{ tid := initState.nextTid
           delay := reconnectDelay (initState.reconnectAttempts + 1) }]
      ∧ (handleClose initState).reconnectAttempts =
          initState.reconnectAttempts + 1)
    ∧ ((handleError initState).pendingTimers = initState.pendingTimers ++
        [{ tid := initState.nextTid
           delay := reconnectDelay (initState.reconnectAttempts + 1) }]
      ∧ (handleError initState).reconnectAttempts =
          initState.reconnectAttempts + 1)
    ∧ (∀ s' : ConnState,
        s'.isManualDisconnect = true ∨
          maxReconnectAttempts ≤ s'.reconnectAttempts →
        tryReconnect s' = s')
    ∧ reconnectDelay (0 + 1) = 1500 :=
  reconnect_backoff_schedule initState rfl (by decide)

/-- The state of the service after the attempt cap has been exhausted by
five consecutive failed auto-reconnects: no transport, no pending timer,
no pending socket event, status `disconnected`, counter at the cap. -/
def cappedState : ConnState :=
  { ws := none, reconnectAttempts := 5, pendingTimers := []
    reconnectTimeout := none, status := ChatStatus.disconnected
    isManualDisconnect := false, zombies := 0, nextTid := 5 }

/-- **C7.** After `maxReconnectAttempts` (5) consecutive failed
auto-reconnect attempts — i.e. in any state with the counter at the cap,
no pending timer, no transport and no pending socket event, status
`disconnected` — the Connection Manager never schedules a further
reconnect attempt: no environment-driven event is possible at all
(`AutoStep` is empty there), `tryReconnect` is a no-op, and the status
therefore remains `disconnected` until an explicit `connect()` call, which
moves it to `connecting`. -/
theorem connection_quiescent_after_cap (s : ConnState)
    (hA : maxReconnectAttempts ≤ s.reconnectAttempts)
    (hT : s.pendingTimers = []) (hW : s.ws = none)
    (hZ : s.zombies = 0) (hS : s.status = ChatStatus.disconnected) :
    (∀ s' : ConnState, ¬ AutoStep s s')
    ∧ tryReconnect s = s
    ∧ s.status = ChatStatus.disconnected
    ∧ (connectFn s).status = ChatStatus.connecting := by
  refine ⟨?_, tryReconnect_noop s (Or.inr hA), hS, ?_⟩
  · intro s' hstep
    cases hstep with
    | timerFires t h =>
      rw [hT] at h
      exact List.not_mem_nil t h
    | transportOpen h =>
      rw [hW] at h
      exact Option.noConfusion h
    | transportClose rs h =>
      rw [hW] at h
      exact Option.noConfusion h
    | transportError rs h =>
      rw [hW] at h
      exact Option.noConfusion h
    | zombieClose h => exact h hZ
  · simp [connectFn, hW, updateStatus]

/-- **C7, witness.** The quiescence property evaluated at the concrete
post-cap state. -/
theorem connection_quiescent_after_cap_witness :
    (∀ s' : ConnState, ¬ AutoStep cappedState s')
    ∧ tryReconnect cappedState = cappedState
    ∧ cappedState.status = ChatStatus.disconnected
    ∧ (connectFn cappedState).status = ChatStatus.connecting :=
  connection_quiescent_after_cap cappedState (by decide) rfl rfl rfl rfl

/-- **C8, counterexample.** A reachable state of the Connection Manager
holds two pending reconnect timers at once: two `sendMessage` calls while
disconnected each invoke `tryReconnect`, and scheduling the second timer
does not cancel the first (the source merely overwrites
`this.reconnectTimeout`). -/
theorem two_pending_reconnect_timers_reachable :
    ∃ s : ConnState, Reachable s ∧ 2 ≤ s.pendingTimers.length := by
  refine ⟨runEvents [WsEvent.userSend, WsEvent.userSend] initState,
    reachable_runEvents _ _ Relation.ReflTransGen.refl, ?_⟩
  decide

/-- **C8, amended.** More than one pending reconnect timer can exist at a
time: scheduling a new reconnect appends a fresh timer while leaving every
prior unfired timer pending; a fresh `connect()` call cancels no pending
timer; and a manual `disconnect()` cancels only the most recently
scheduled timer (the handle stored in `reconnectTimeout`) — every other
pending timer survives it. -/
theorem reconnect_timer_accumulation (s : ConnState)
    (hm : s.isManualDisconnect = false)
    (hc : s.reconnectAttempts < maxReconnectAttempts) :
    (tryReconnect s).pendingTimers = s.pendingTimers ++
      [{ tid := s.nextTid, delay := reconnectDelay (s.reconnectAttempts + 1) }]
    ∧ (connectFn s).pendingTimers = s.pendingTimers
    ∧ ∀ t ∈ s.pendingTimers, s.reconnectTimeout ≠ some t.tid →
        t ∈ (disconnectFn s).pendingTimers := by
  refine ⟨?_, ?_, ?_⟩
  · rw [tryReconnect_schedules s hm hc]
  · cases hws : s.ws <;> simp [connectFn, hws, updateStatus]
  · intro t ht hne
    rw [disconnectFn]
    cases hrt : s.reconnectTimeout with
    | none =>
      cases hws : s.ws <;> simp [updateStatus, hrt, hws] <;> exact ht
    | some tid =>
      have htid : t.tid ≠ tid := by
        intro hEq
        exact hne (by rw [hrt, hEq])
      cases hws : s.ws <;>
        simp [updateStatus, hrt, hws, List.mem_filter] <;>
        exact ⟨ht, htid⟩

/-- **C8, amended, witness.** The accumulation facts evaluated at the
initial state. -/
theorem reconnect_timer_accumulation_witness :
    (tryReconnect initState).pendingTimers = initState.pendingTimers ++
      [{ tid := initState.nextTid
         delay := reconnectDelay (initState.reconnectAttempts + 1) }]
    ∧ (connectFn initState).pendingTimers = initState.pendingTimers
    ∧ ∀ t ∈ initState.pendingTimers,
        initState.reconnectTimeout ≠ some t.tid →
          t ∈ (disconnectFn initState).pendingTimers :=
  reconnect_timer_accumulation initState rfl (by decide)

end JayPee
